import Mathlib

/-!
Verification development for the `cargo-gpu` backend-installation engine.

The definitions below are a shallow embedding of the Rust sources under
`crates/cargo-gpu/src/` (notably `lockfile.rs`, `install.rs`,
`spirv_source.rs`, `target_specs.rs`, `install_toolchain.rs`, `lib.rs`).
File contents are modelled as `List Char`, filesystem paths as lists of
path components, and the filesystem as an association list from paths to
contents.  External collaborators (the `semver` crate, `cargo metadata`,
`rustup`, the terminal) are modelled as parameters of the embedded
functions.
-/
/-! ## Rust string primitives

`lpfx`, `containsSubstr`, `replaceAll`, `rustLines` are shallow embeddings
of Rust's `str::starts_with` (on a pattern string), `str::contains`,
`str::replace` (non-overlapping, left-to-right) and `str::lines`.
-/
/-- Boolean prefix test on character lists, mirroring a Rust `&str`
prefix match. -/
def lpfx : List Char → List Char → Bool
  | [], _ => true
  | _ :: _, [] => false
  | a :: as, b :: bs => a == b && lpfx as bs

/-- Embedding of Rust's `str::contains` for a literal pattern: some
suffix of `s` starts with `pat`. -/
def containsSubstr (pat : List Char) : List Char → Bool
  | [] => lpfx pat []
  | c :: rest => lpfx pat (c :: rest) || containsSubstr pat rest

/-- Fuel-indexed worker for `replaceAll`; the fuel only serves to make
the recursion structural, `replaceAllF_congr` shows it is irrelevant
once it covers the length of the string. -/
def replaceAllF (pat rep : List Char) : Nat → List Char → List Char
  | _, [] => []
  | 0, s => s
  | fuel + 1, c :: rest =>
    if pat ≠ [] ∧ lpfx pat (c :: rest) = true then
      rep ++ replaceAllF pat rep fuel (List.drop pat.length (c :: rest))
    else
      c :: replaceAllF pat rep fuel rest

/-- Embedding of Rust's `str::replace`: replace every non-overlapping
occurrence of `pat` in `s` by `rep`, scanning left to right.  (All
patterns used by the program are non-empty; for an empty pattern this
embedding leaves the string unchanged.) -/
def replaceAll (pat rep : List Char) (s : List Char) : List Char :=
  replaceAllF pat rep s.length s

/-- Split a character list at every newline; the result always has one
more segment than there are newlines. -/
def splitOnNl : List Char → List (List Char)
  | [] => [[]]
  | c :: rest =>
    if c = '\n' then [] :: splitOnNl rest
    else List.modifyHead (fun l => c :: l) (splitOnNl rest)

/-- Remove one trailing carriage return, as Rust's `str::lines` does for
`\r\n` line endings. -/
def stripCr (l : List Char) : List Char :=
  if l.getLast? = some '\r' then l.dropLast else l

/-- Strip carriage returns from every newline-terminated segment; the
final segment of a string with no trailing newline is yielded as-is. -/
def rustLinesAux : List (List Char) → List (List Char)
  | [] => []
  | [l] => [l]
  | l :: l' :: rest => stripCr l :: rustLinesAux (l' :: rest)

/-- Embedding of Rust's `str::lines`. -/
def rustLines (s : List Char) : List (List Char) :=
  if s = [] then []
  else if s.getLast? = some '\n' then ((splitOnNl s).dropLast).map stripCr
  else rustLinesAux (splitOnNl s)

/-! ## Filesystem model

Paths are lists of components; the filesystem is an association list
from paths to file contents.  `fsWrite` models opening an *existing*
file with write+truncate and writing new contents (the program only
ever opens files it has just read). -/
/-- A filesystem path, as a list of components. -/
abbrev FPath := List String

/-- File contents. -/
abbrev Content := List Char

/-- The filesystem: an association list from paths to contents. -/
abbrev FS := List (FPath × Content)

/-- Read a file (Rust `std::fs::read_to_string`, `None` = error). -/
def fsRead (fs : FS) (p : FPath) : Option Content :=
  match fs with
  | [] => none
  | (q, c) :: rest => if q = p then some c else fsRead rest p

/-- Overwrite an existing file's contents; absent paths are unaffected. -/
def fsWrite (fs : FS) (p : FPath) (c : Content) : FS :=
  match fs with
  | [] => []
  | (q, d) :: rest =>
    if q = p then (p, c) :: fsWrite rest p c else (q, d) :: fsWrite rest p c

/-- Rust `Path::exists` for the lock-manifest files we model. -/
def fsExists (fs : FS) (p : FPath) : Bool :=
  (fsRead fs p).isSome

/-- Rust `Path::parent` on component lists. -/
def parentOf (p : FPath) : Option FPath :=
  if p = [] then none else some p.dropLast

/-- The mutable world threaded through the lockfile handler: the
filesystem plus a log of every path opened for writing. -/
structure St where
  fs : FS
  writes : List FPath
deriving DecidableEq

/-! ## Embedding of `lockfile.rs` -/
/-- A `semver::Version` as used by `query_rustc_version`; `pre` is the
pre-release tag.  (The claims only ever compare versions against the
pre-release-free threshold `1.83.0`, for which this ordering agrees
with the external `semver` crate's.) -/
structure RustVersion where
  major : Nat
  minor : Nat
  patch : Nat
  pre : List Char
deriving DecidableEq

/-- Byte-wise lexicographic order on pre-release tags. -/
def preLe : List Char → List Char → Bool
  | [], _ => true
  | _ :: _, [] => false
  | a :: as, b :: bs => if a = b then preLe as bs else decide (a < b)

/-- `v >= w` for `semver::Version` (a version with a pre-release tag
precedes the same version without one). -/
def verGe (v w : RustVersion) : Bool :=
  if v.major ≠ w.major then decide (w.major < v.major)
  else if v.minor ≠ w.minor then decide (w.minor < v.minor)
  else if v.patch ≠ w.patch then decide (w.patch < v.patch)
  else
    match v.pre, w.pre with
    | [], _ => true
    | _ :: _, [] => false
    | a :: as, b :: bs => preLe (b :: bs) (a :: as)

/-- `lockfile.rs`: `Cargo.lock` manifest version 4 became the default in
Rust 1.83.0. -/
def RUST_VERSION_THAT_USES_V4_CARGO_LOCKS : RustVersion := ⟨1, 83, 0, []⟩

/-- Errors surfaced by the lockfile handler (`anyhow` contexts). -/
inductive LErr where
  | readFailed : FPath → LErr
  | noThirdLine : FPath → LErr
  | unrecognizedManifest : FPath → LErr
deriving DecidableEq

/-- Outcome of a lockfile-handler operation: success, an error returned
to the caller, or termination of the whole process via
`std::process::exit`. -/
inductive Res (α : Type) where
  | ok : α → Res α
  | err : LErr → Res α
  | exited : Nat → Res α
deriving DecidableEq

/-- The literal pattern `\nversion = <v>\n` from
`replace_cargo_lock_manifest_version`. -/
def versionPat (v : List Char) : List Char :=
  '\n' :: ("version = ".toList ++ v ++ ['\n'])

/-- The literal substring `version = 4` checked on the third line. -/
def marker4 : List Char := "version = 4".toList

/-- The literal substring `version = 3` checked on the third line. -/
def marker3 : List Char := "version = 3".toList

/-- `LockfileMismatchHandler::replace_cargo_lock_manifest_version`:
read the file, replace the literal pattern, write back in place. -/
def replace_cargo_lock_manifest_version (p : FPath) (fromV toV : List Char)
    (st : St) : Except LErr St :=
  match fsRead st.fs p with
  | none => .error (.readFailed p)
  | some oldContents =>
    let newContents := replaceAll (versionPat fromV) (versionPat toV) oldContents
    .ok ⟨fsWrite st.fs p newContents, st.writes ++ [p]⟩

/-- `LockfileMismatchHandler::handle_v3v4_conflict`: without the
force-overwrite authorization the whole process exits (code 1) with
advice; with it, the marker is rewritten 4 → 3. -/
def handle_v3v4_conflict (p : FPath) (force : Bool) (st : St) : Res St :=
  if !force then .exited 1
  else
    match replace_cargo_lock_manifest_version p "4".toList "3".toList st with
    | .ok st' => .ok st'
    | .error e => .err e

/-- `LockfileMismatchHandler::handle_conflicting_cargo_lock_v4`: inspect
the third line of `<folder>/Cargo.lock` for the literal markers. -/
def handle_conflicting_cargo_lock_v4 (folder : FPath) (force : Bool)
    (st : St) : Res St :=
  let lockPath := folder ++ ["Cargo.lock"]
  match fsRead st.fs lockPath with
  | none => .err (.readFailed lockPath)
  | some contents =>
    match (rustLines contents)[2]? with
    | none => .err (.noThirdLine lockPath)
    | some thirdLine =>
      if containsSubstr marker4 thirdLine then
        handle_v3v4_conflict lockPath force st
      else if containsSubstr marker3 thirdLine then .ok st
      else .err (.unrecognizedManifest folder)

/-- The bounded upward directory walk in
`LockfileMismatchHandler::get_workspace_root` (15 steps). -/
def walkUp : Nat → FPath → FS → Option FPath
  | 0, _, _ => none
  | n + 1, cur, fs =>
    match parentOf cur with
    | none => none
    | some par =>
      if fsExists fs (par ++ ["Cargo.lock"]) then some par else walkUp n par fs

/-- `LockfileMismatchHandler::get_workspace_root`: read the crate's
`Cargo.toml`; if it mentions `workspace = true`, walk up looking for a
`Cargo.lock`. -/
def get_workspace_root (path : FPath) (fs : FS) : Except LErr (Option FPath) :=
  match fsRead fs (path ++ ["Cargo.toml"]) with
  | none => .error (.readFailed (path ++ ["Cargo.toml"]))
  | some toml =>
    if containsSubstr "workspace = true".toList toml then .ok (walkUp 15 path fs)
    else .ok none

/-- `ensure_workspace_rust_version_doesnt_conflict_with_shader`:
`wsVersion` is the result of the external `query_rustc_version(None)`. -/
def ensure_workspace_rust_version_doesnt_conflict_with_shader
    (wsVersion : RustVersion) (path : FPath) (force : Bool) (st : St) :
    Res (Option FPath × St) :=
  if verGe wsVersion RUST_VERSION_THAT_USES_V4_CARGO_LOCKS then .ok (none, st)
  else
    match handle_conflicting_cargo_lock_v4 path force st with
    | .ok st' =>
      if force then .ok (some (path ++ ["Cargo.lock"]), st') else .ok (none, st')
    | .err e => .err e
    | .exited n => .exited n

/-- `ensure_shader_rust_version_doesnt_conflict_with_any_cargo_locks`:
`shVersion` is the result of the external
`query_rustc_version(Some(channel))`. -/
def ensure_shader_rust_version_doesnt_conflict_with_any_cargo_locks
    (shVersion : RustVersion) (path : FPath) (force : Bool) (st : St) :
    Res (Option FPath × St) :=
  if verGe shVersion RUST_VERSION_THAT_USES_V4_CARGO_LOCKS then .ok (none, st)
  else
    match
      (if fsExists st.fs (path ++ ["Cargo.lock"]) then
        handle_conflicting_cargo_lock_v4 path force st
      else .ok st) with
    | .err e => .err e
    | .exited n => .exited n
    | .ok st1 =>
      match get_workspace_root path st1.fs with
      | .error e => .err e
      | .ok none => .ok (none, st1)
      | .ok (some root) =>
        match handle_conflicting_cargo_lock_v4 root force st1 with
        | .err e => .err e
        | .exited n => .exited n
        | .ok st2 => .ok (some (root ++ ["Cargo.lock"]), st2)

/-- `LockfileMismatchHandler::new`: run both checks and collect the
recorded lock-manifest paths, in order. -/
def LockfileMismatchHandler_new (wsVersion shVersion : RustVersion)
    (path : FPath) (force : Bool) (st : St) : Res (List FPath × St) :=
  match ensure_workspace_rust_version_doesnt_conflict_with_shader
      wsVersion path force st with
  | .err e => .err e
  | .exited n => .exited n
  | .ok (m1, st1) =>
    match ensure_shader_rust_version_doesnt_conflict_with_any_cargo_locks
        shVersion path force st1 with
    | .err e => .err e
    | .exited n => .exited n
    | .ok (m2, st2) =>
      .ok ((m1.toList ++ m2.toList), st2)

/-- `LockfileMismatchHandler::revert_cargo_lock_manifest_versions`:
rewrite every recorded file's marker 3 → 4, stopping at the first
failure (the `?` operator). -/
def revertRec : List FPath → St → St × Option LErr
  | [], st => (st, none)
  | p :: rest, st =>
    match replace_cargo_lock_manifest_version p "3".toList "4".toList st with
    | .ok st' => revertRec rest st'
    | .error e => (st, some e)

/-- The body of `impl Drop for LockfileMismatchHandler`: revert the
recorded files; a failure is only logged (the second component of
`revertRec` is discarded), never propagated. -/
def dropGuard (recorded : List FPath) (st : St) : St :=
  (revertRec recorded st).1

/-! ## Embedding of `spirv_source.rs`

`SpirvSourceG` is `SpirvSource`, polymorphic in the version type `V`
(the external `semver::Version`).  The constructor `registry`
corresponds to the source's `CratesIO` variant, `localPath` to its
`Path` variant (whose repository root we model as an `FPath`). -/
/-- The source and version of `rust-gpu` (`enum SpirvSource`). -/
inductive SpirvSourceG (V : Type) where
  | registry : V → SpirvSourceG V
  | git : (url : List Char) → (rev : List Char) → SpirvSourceG V
  | localPath : (root : FPath) → (version : V) → SpirvSourceG V
deriving DecidableEq

/-- `SpirvSource::is_path`. -/
def SpirvSource_is_path {V : Type} : SpirvSourceG V → Bool
  | .localPath _ _ => true
  | _ => false

/-- `impl Display for SpirvSource`: for Git sources the revision is
shortened to its first 8 characters when it has at least 8
(`rev.get(..8)`).  `showVer` renders the external `semver::Version`,
`renderPath` renders a path. -/
def SpirvSource_display {V : Type} (showVer : V → List Char)
    (renderPath : FPath → List Char) : SpirvSourceG V → List Char
  | .registry v => showVer v
  | .git url rev =>
    if 8 ≤ rev.length then url ++ '+' :: rev.take 8 else url ++ '+' :: rev
  | .localPath root v => renderPath root ++ '+' :: showVer v

/-- `lib.rs::to_dirname`: replace path separators and punctuation by
underscores, then strip brace/space/newline/quote characters.
(`Char.ofNat 123`/`125`/`39` are the two brace characters and the
single-quote character.) -/
def to_dirname (text : List Char) : List Char :=
  (text.map fun c =>
    if c == '/' || c == '\\' || c == '.' || c == ':' || c == '@' || c == '=' then '_'
    else c).filter fun c =>
      !(c == Char.ofNat 123 || c == Char.ofNat 125 || c == ' ' || c == '\n' ||
        c == '"' || c == Char.ofNat 39)

/-- `SpirvSource::install_dir`: a local path is its own install
directory; registry and Git sources live under
`<cache-root>/codegen/<sanitized rendering>`. -/
def SpirvSource_install_dir {V : Type} (showVer : V → List Char)
    (renderPath : FPath → List Char) (cacheRoot : FPath) :
    SpirvSourceG V → FPath
  | .localPath root _ => root
  | s => cacheRoot ++ ["codegen", String.mk (to_dirname (SpirvSource_display showVer renderPath s))]

/-- Errors of `SpirvSource::new`: a `semver` parse failure of the
version override, or an error from the dependency-metadata inspection. -/
inductive SrcErr (E : Type) where
  | parseFailed : SrcErr E
  | metaErr : E → SrcErr E
deriving DecidableEq

/-- `SpirvSource::new`.  `parseVersion` is the external
`semver::Version::parse`; `metaSource` is the (external-collaborator)
result of `get_rust_gpu_deps_from_shader`, i.e. of inspecting the
shader crate's resolved dependency metadata. -/
def SpirvSource_new {V E : Type} (parseVersion : List Char → Option V)
    (metaSource : Except E (SpirvSourceG V))
    (maybeSource maybeVersion : Option (List Char)) :
    Except (SrcErr E) (SpirvSourceG V) :=
  match maybeVersion with
  | some v =>
    match maybeSource with
    | some u => .ok (.git u v)
    | none =>
      match parseVersion v with
      | some ver => .ok (.registry ver)
      | none => .error .parseFailed
  | none =>
    match metaSource with
    | .ok s => .ok s
    | .error e => .error (.metaErr e)

/-! ## Embedding of `install.rs` (cache probe and target specs) -/
/-- The platform dylib file name
`{DLL_PREFIX}rustc_codegen_spirv{DLL_SUFFIX}`. -/
def dylib_filename (dllPrefix dllSuffix : String) : String :=
  dllPrefix ++ "rustc_codegen_spirv" ++ dllSuffix

/-- `Install::run`: the destination path of the backend artifact.  For a
local-path source it points into the checkout's own build output,
otherwise directly into the install directory. -/
def dest_dylib_path {V : Type} (source : SpirvSourceG V) (installDir : FPath)
    (dylib : String) : FPath :=
  if SpirvSource_is_path source then installDir ++ ["target", "release", dylib]
  else installDir ++ [dylib]

/-- `Install::run`'s cache probe:
`!source.is_path() && dest_dylib_path.is_file() && !self.rebuild_codegen`.
The toolchain-provisioning and build steps run exactly when this is
`false`. -/
def skip_rebuild {V : Type} (source : SpirvSourceG V) (fs : FS)
    (installDir : FPath) (dylib : String) (rebuild_codegen : Bool) : Bool :=
  !(SpirvSource_is_path source)
    && fsExists fs (dest_dylib_path source installDir dylib)
    && !rebuild_codegen

/-- Filesystem effects of target-spec resolution, recorded rather than
performed: copying all spec files, or extracting the legacy bundle. -/
inductive SpecEffect where
  | copySpecs : (src dst : FPath) → SpecEffect
  | writeLegacy : (dst : FPath) → SpecEffect
deriving DecidableEq

/-- The spec-resolution error ("Could not find `target-specs` directory
within `rustc_codegen_spirv-target-specs` dependency"). -/
inductive SpecErr where
  | missingTargetSpecsDir : SpecErr
deriving DecidableEq

/-- `Install::update_spec_files`.  `findSpecsPkg` is the manifest path
of the companion `rustc_codegen_spirv-target-specs` package when the
dependency metadata contains it; `isDir` probes the on-disk filesystem. -/
def update_spec_files {V : Type} (source : SpirvSourceG V) (installDir : FPath)
    (findSpecsPkg : Option FPath) (isDir : FPath → Bool) (cacheRoot : FPath)
    (skipRebuild : Bool) : Except SpecErr (FPath × List SpecEffect) :=
  let dst := installDir ++ ["target-specs"]
  if skipRebuild then .ok (dst, [])
  else
    match findSpecsPkg with
    | some manifestPath =>
      match parentOf manifestPath with
      | none => .error .missingTargetSpecsDir
      | some root =>
        let src := root ++ ["target-specs"]
        if isDir src then
          if SpirvSource_is_path source then .ok (src, [])
          else .ok (dst, [.copySpecs src dst])
        else .error .missingTargetSpecsDir
    | none =>
      let dst' :=
        if SpirvSource_is_path source then
          cacheRoot ++ ["legacy-target-specs-for-local-checkout"]
        else dst
      .ok (dst', [.writeLegacy dst'])

/-! ## Embedding of `install_toolchain.rs` (consent prompt) -/
/-- Kind of a key event (crossterm `KeyEventKind`). -/
inductive KeyKind where
  | press
  | release
  | repeatKind
deriving DecidableEq

/-- Key codes the prompt logic distinguishes (crossterm `KeyCode`). -/
inductive KeyCode where
  | charKey : Char → KeyCode
  | enter : KeyCode
  | otherCode : KeyCode
deriving DecidableEq

/-- A terminal event (crossterm `Event`): a key event or anything else
(resize, focus, paste, ...). -/
inductive TermEvent where
  | key : KeyCode → KeyKind → TermEvent
  | nonKey : TermEvent
deriving DecidableEq

/-- The Enter-key-release pattern that triggers the Powershell re-read
workaround. -/
def isEnterRelease : TermEvent → Bool
  | .key .enter .release => true
  | _ => false

/-- The affirmative pattern `KeyCode::Char('y')`, any kind. -/
def isAffirmative : TermEvent → Bool
  | .key (.charKey c) _ => c == 'y'
  | _ => false

/-- Outcome of the consent prompt: consent granted and control returned
to the caller, the whole process terminated via `std::process::exit`,
or a terminal-read error returned to the caller. -/
inductive ConsentOutcome where
  | granted
  | exitedProcess : Nat → ConsentOutcome
  | readError
deriving DecidableEq

/-- `get_consent_for_toolchain_install`, over the stream of terminal
events.  Returns the outcome and whether a prompt was issued. -/
def get_consent_for_toolchain_install (skipConsent : Bool)
    (events : List TermEvent) : ConsentOutcome × Bool :=
  if skipConsent then (.granted, false)
  else
    match events with
    | [] => (.readError, true)
    | e :: rest =>
      match (if isEnterRelease e then rest.head? else some e) with
      | none => (.readError, true)
      | some d =>
        if isAffirmative d then (.granted, true) else (.exitedProcess 0, true)

/-! ## Theorems -/

theorem replaceAllF_congr (pat rep : List Char) :
    ∀ f1 : Nat, ∀ f2 : Nat, ∀ s : List Char, s.length ≤ f1 → s.length ≤ f2 →
      replaceAllF pat rep f1 s = replaceAllF pat rep f2 s := by
  intro f1
  induction f1 with
  | zero =>
    intro f2 s hs1 _
    have : s = [] := List.eq_nil_of_length_eq_zero (Nat.le_zero.mp hs1)
    subst this
    cases f2 <;> rfl
  | succ f1 ih =>
    intro f2 s hs1 hs2
    cases s with
    | nil => cases f2 <;> rfl
    | cons c rest =>
      cases f2 with
      | zero => exact absurd hs2 (by simp)
      | succ g =>
        simp only [replaceAllF]
        by_cases h : pat ≠ [] ∧ lpfx pat (c :: rest) = true
        · simp only [if_pos h]
          have hplen : 1 ≤ pat.length := by
            cases pat with
            | nil => exact absurd rfl h.1
            | cons p ps => simp
          have hlen : (List.drop pat.length (c :: rest)).length ≤ rest.length := by
            simp only [List.length_drop, List.length_cons]
            omega
          have h1 : (List.drop pat.length (c :: rest)).length ≤ f1 := by
            simp only [List.length_cons] at hs1; omega
          have h2 : (List.drop pat.length (c :: rest)).length ≤ g := by
            simp only [List.length_cons] at hs2; omega
          rw [ih g _ h1 h2]
        · simp only [if_neg h]
          have h1 : rest.length ≤ f1 := by simp only [List.length_cons] at hs1; omega
          have h2 : rest.length ≤ g := by simp only [List.length_cons] at hs2; omega
          rw [ih g rest h1 h2]

theorem replaceAll_nil (pat rep : List Char) : replaceAll pat rep [] = [] := rfl

theorem replaceAll_cons_pos (pat rep : List Char) (c : Char) (rest : List Char)
    (h1 : pat ≠ []) (h2 : lpfx pat (c :: rest) = true) :
    replaceAll pat rep (c :: rest)
      = rep ++ replaceAll pat rep (List.drop pat.length (c :: rest)) := by
  have hplen : 1 ≤ pat.length := by
    cases pat with
    | nil => exact absurd rfl h1
    | cons p ps => simp
  show replaceAllF pat rep (rest.length + 1) (c :: rest) = _
  simp only [replaceAllF, if_pos (And.intro h1 h2)]
  rw [replaceAllF_congr pat rep rest.length (List.drop pat.length (c :: rest)).length
    (List.drop pat.length (c :: rest))]
  · rfl
  · simp only [List.length_drop, List.length_cons]; omega
  · exact Nat.le_refl _

theorem replaceAll_cons_neg (pat rep : List Char) (c : Char) (rest : List Char)
    (h : ¬(pat ≠ [] ∧ lpfx pat (c :: rest) = true)) :
    replaceAll pat rep (c :: rest) = c :: replaceAll pat rep rest := by
  show replaceAllF pat rep (rest.length + 1) (c :: rest) = _
  simp only [replaceAllF, if_neg h]
  rfl

/-! ## Lemmas about the string primitives -/
theorem lpfx_iff : ∀ p l : List Char, lpfx p l = true ↔ ∃ t, l = p ++ t := by
  intro p
  induction p with
  | nil =>
    intro l
    simp [lpfx]
  | cons a as ih =>
    intro l
    cases l with
    | nil =>
      simp [lpfx]
    | cons b bs =>
      simp only [lpfx, Bool.and_eq_true, beq_iff_eq, List.cons_append, List.cons.injEq]
      constructor
      · rintro ⟨hab, h⟩
        obtain ⟨t, ht⟩ := (ih bs).mp h
        exact ⟨t, hab.symm, ht⟩
      · rintro ⟨t, hba, ht⟩
        exact ⟨hba.symm, (ih bs).mpr ⟨t, ht⟩⟩

theorem lpfx_append_self (p t : List Char) : lpfx p (p ++ t) = true :=
  (lpfx_iff p (p ++ t)).mpr ⟨t, rfl⟩

theorem lpfx_take (p xs : List Char) (k : Nat) (h : lpfx p xs = true)
    (hk : p.length ≤ k) : lpfx p (xs.take k) = true := by
  obtain ⟨t, ht⟩ := (lpfx_iff p xs).mp h
  subst ht
  rw [List.take_append_eq_append_take, List.take_of_length_le hk]
  exact lpfx_append_self p _

theorem containsSubstr_of_lpfx_drop (pat : List Char) :
    ∀ s : List Char, ∀ i : Nat, lpfx pat (s.drop i) = true →
      containsSubstr pat s = true := by
  intro s
  induction s with
  | nil =>
    intro i h
    simpa [containsSubstr, List.drop_nil] using h
  | cons c r ih =>
    intro i h
    cases i with
    | zero =>
      simp only [List.drop_zero] at h
      simp [containsSubstr, h]
    | succ j =>
      simp only [List.drop_succ_cons] at h
      simp [containsSubstr, ih j h]

theorem replaceAll_of_not_contains (pat rep : List Char) :
    ∀ s : List Char, containsSubstr pat s = false → replaceAll pat rep s = s := by
  intro s
  induction s with
  | nil => intro _; rfl
  | cons c rest ih =>
    intro h
    simp only [containsSubstr, Bool.or_eq_false_iff] at h
    rw [replaceAll_cons_neg pat rep c rest (by
      rintro ⟨-, hp⟩
      rw [h.1] at hp
      exact Bool.false_ne_true hp)]
    rw [ih h.2]

theorem firstFree_of_not_contains (pat a b : List Char) (hpat : pat ≠ [])
    (hA : containsSubstr pat (a ++ pat.dropLast) = false) :
    ∀ i : Nat, i < a.length → lpfx pat ((a ++ pat ++ b).drop i) = false := by
  intro i hi
  have hplen : 1 ≤ pat.length := by
    cases pat with
    | nil => exact absurd rfl hpat
    | cons p ps => simp
  by_contra hcon
  have h1 : lpfx pat ((a ++ pat ++ b).drop i) = true :=
    Bool.not_eq_false _ ▸ (eq_true_of_ne_false hcon)
  have hsplit : a ++ pat ++ b = (a ++ pat.dropLast) ++ (pat.getLast hpat :: b) := by
    rw [List.append_assoc, List.append_assoc]
    congr 1
    rw [show pat.getLast hpat :: b = [pat.getLast hpat] ++ b from rfl,
      ← List.append_assoc, List.dropLast_append_getLast hpat]
  have hm : (a ++ pat.dropLast).length = a.length + pat.length - 1 := by
    simp only [List.length_append, List.length_dropLast]
    omega
  have hk : pat.length ≤ (a ++ pat.dropLast).length - i := by omega
  have h2 : lpfx pat (((a ++ pat ++ b).drop i).take ((a ++ pat.dropLast).length - i))
      = true := lpfx_take pat _ _ h1 hk
  rw [← List.drop_take] at h2
  rw [hsplit, List.take_left] at h2
  exact absurd (containsSubstr_of_lpfx_drop pat _ i h2)
    (by rw [hA]; exact Bool.false_ne_true)

theorem replaceAll_first_match (pat rep b : List Char) (hpat : pat ≠ []) :
    ∀ a : List Char,
      (∀ i : Nat, i < a.length → lpfx pat ((a ++ pat ++ b).drop i) = false) →
      replaceAll pat rep (a ++ pat ++ b) = a ++ rep ++ replaceAll pat rep b := by
  intro a
  induction a with
  | nil =>
    intro _
    simp only [List.nil_append]
    cases pat with
    | nil => exact absurd rfl hpat
    | cons q qs =>
      rw [show (q :: qs) ++ b = q :: (qs ++ b) from rfl,
        replaceAll_cons_pos (q :: qs) rep q (qs ++ b) hpat
          (lpfx_append_self (q :: qs) b),
        show q :: (qs ++ b) = (q :: qs) ++ b from rfl,
        List.drop_left]
  | cons c a' ih =>
    intro hff
    have h0 : lpfx pat (c :: (a' ++ pat ++ b)) = false := by
      have := hff 0 (by simp)
      simpa using this
    rw [show (c :: a') ++ pat ++ b = c :: (a' ++ pat ++ b) from rfl,
      replaceAll_cons_neg pat rep c (a' ++ pat ++ b) (by
        rintro ⟨-, hp⟩
        rw [h0] at hp
        exact Bool.false_ne_true hp)]
    rw [ih (by
      intro i hi
      have := hff (i + 1) (by simp only [List.length_cons]; omega)
      simpa using this)]
    rfl

theorem replaceAll_single (pat rep a b : List Char) (hpat : pat ≠ [])
    (hA : containsSubstr pat (a ++ pat.dropLast) = false)
    (hb : containsSubstr pat b = false) :
    replaceAll pat rep (a ++ pat ++ b) = a ++ rep ++ b := by
  rw [replaceAll_first_match pat rep b hpat a
    (firstFree_of_not_contains pat a b hpat hA)]
  rw [replaceAll_of_not_contains pat rep b hb]

theorem splitOnNl_ne_nil : ∀ s : List Char, splitOnNl s ≠ [] := by
  intro s
  induction s with
  | nil => simp [splitOnNl]
  | cons c rest ih =>
    simp only [splitOnNl]
    by_cases h : c = '\n'
    · simp [h]
    · simp only [if_neg h]
      obtain ⟨x, xs, hx⟩ := List.exists_cons_of_ne_nil ih
      rw [hx]
      simp [List.modifyHead]

theorem splitOnNl_append (y : List Char) :
    ∀ x : List Char, '\n' ∉ x → splitOnNl (x ++ '\n' :: y) = x :: splitOnNl y := by
  intro x
  induction x with
  | nil =>
    intro _
    simp [splitOnNl]
  | cons c x' ih =>
    intro hmem
    have hc : c ≠ '\n' := by
      intro h
      exact hmem (h ▸ List.mem_cons_self c x')
    have hx' : '\n' ∉ x' := fun h => hmem (List.mem_cons_of_mem c h)
    simp only [List.cons_append, splitOnNl, if_neg hc]
    show List.modifyHead (fun l => c :: l) (splitOnNl (x' ++ '\n' :: y))
      = (c :: x') :: splitOnNl y
    rw [ih hx']
    rfl

theorem rustLines_third (l1 l2 v b : List Char)
    (h1 : '\n' ∉ l1) (h2 : '\n' ∉ l2) (hv : '\n' ∉ v) (hvr : stripCr v = v) :
    (rustLines (l1 ++ '\n' :: (l2 ++ '\n' :: (v ++ '\n' :: b))))[2]? = some v := by
  have hsplit : splitOnNl (l1 ++ '\n' :: (l2 ++ '\n' :: (v ++ '\n' :: b)))
      = l1 :: l2 :: v :: splitOnNl b := by
    rw [splitOnNl_append _ l1 h1, splitOnNl_append _ l2 h2, splitOnNl_append _ v hv]
  have hne : l1 ++ '\n' :: (l2 ++ '\n' :: (v ++ '\n' :: b)) ≠ [] := by
    intro h
    have := congrArg List.length h
    simp at this
  obtain ⟨m, ms, hM⟩ := List.exists_cons_of_ne_nil (splitOnNl_ne_nil b)
  rw [rustLines, if_neg hne]
  by_cases hlast :
      (l1 ++ '\n' :: (l2 ++ '\n' :: (v ++ '\n' :: b))).getLast? = some '\n'
  · rw [if_pos hlast, hsplit, hM]
    simp [hvr]
  · rw [if_neg hlast, hsplit, hM]
    simp [rustLinesAux, hvr]

theorem getElem?_append_mid (a p b : List Char) (k : Nat) (hk : k < p.length) :
    (a ++ p ++ b)[a.length + k]? = p[k]? := by
  rw [List.append_assoc, List.getElem?_append_right (by omega),
    Nat.add_sub_cancel_left, List.getElem?_append_left hk]

theorem getElem?_append_mid_ne (a b p q : List Char) (hlen : p.length = q.length)
    (k : Nat) (hpq : ∀ j : Nat, j < p.length → j ≠ k → p[j]? = q[j]?) :
    ∀ j : Nat, j ≠ a.length + k → (a ++ p ++ b)[j]? = (a ++ q ++ b)[j]? := by
  intro j hj
  rw [List.append_assoc, List.append_assoc]
  rcases Nat.lt_or_ge j a.length with h | h
  · rw [List.getElem?_append_left h, List.getElem?_append_left h]
  · rw [List.getElem?_append_right h, List.getElem?_append_right h]
    rcases Nat.lt_or_ge (j - a.length) p.length with h' | h'
    · rw [List.getElem?_append_left h', List.getElem?_append_left (hlen ▸ h')]
      exact hpq (j - a.length) h' (by omega)
    · rw [List.getElem?_append_right h', List.getElem?_append_right (hlen ▸ h'), hlen]

/-! ## Claim theorems -/

/-- Claim C4: if both the invoking toolchain's compiler version and the
backend's required toolchain's compiler version are at or above 1.83.0,
constructing the lockfile guard opens no lock-manifest file for writing
(the write log stays empty) and leaves every lock-manifest file's
content unchanged (the filesystem is returned untouched), for every
value of the force-overwrite authorization flag. -/
theorem c4_threshold_no_lockfile_writes (wsV shV : RustVersion) (path : FPath)
    (force : Bool) (st : St)
    (hws : verGe wsV RUST_VERSION_THAT_USES_V4_CARGO_LOCKS = true)
    (hsh : verGe shV RUST_VERSION_THAT_USES_V4_CARGO_LOCKS = true) :
    LockfileMismatchHandler_new wsV shV path force st = Res.ok ([], st) := by
  simp [LockfileMismatchHandler_new,
    ensure_workspace_rust_version_doesnt_conflict_with_shader,
    ensure_shader_rust_version_doesnt_conflict_with_any_cargo_locks, hws, hsh]

/-- Witness for C4 at concrete versions 1.83.0 and 1.90.1, a concrete
lock-manifest filesystem, and force-overwrite set. -/
theorem c4_threshold_no_lockfile_writes_witness :
    verGe ⟨1, 83, 0, []⟩ RUST_VERSION_THAT_USES_V4_CARGO_LOCKS = true ∧
    LockfileMismatchHandler_new ⟨1, 83, 0, []⟩ ⟨1, 90, 1, []⟩ ["w", "s"] true
        ⟨[(["w", "s", "Cargo.lock"], "a\nb\nversion = 4\n".toList)], []⟩
      = Res.ok ([], ⟨[(["w", "s", "Cargo.lock"], "a\nb\nversion = 4\n".toList)], []⟩) :=
  ⟨by decide,
    c4_threshold_no_lockfile_writes ⟨1, 83, 0, []⟩ ⟨1, 90, 1, []⟩ ["w", "s"] true
      ⟨[(["w", "s", "Cargo.lock"], "a\nb\nversion = 4\n".toList)], []⟩
      (by decide) (by decide)⟩

/-- Claim C5: the cache probe of `Install::run` — a local-path source
never skips the build; otherwise the build/provisioning block is
skipped exactly when the expected artifact file exists at its
destination inside the install directory and the force-rebuild flag is
unset. -/
theorem c5_cache_probe {V : Type} (source : SpirvSourceG V) (fs : FS)
    (installDir : FPath) (dylib : String) (rebuild : Bool) :
    (SpirvSource_is_path source = true →
      skip_rebuild source fs installDir dylib rebuild = false) ∧
    (SpirvSource_is_path source = false →
      (skip_rebuild source fs installDir dylib rebuild = true ↔
        fsExists fs (installDir ++ [dylib]) = true ∧ rebuild = false)) := by
  constructor
  · intro h
    simp [skip_rebuild, h]
  · intro h
    simp [skip_rebuild, dest_dylib_path, h]

/-- Witness for C5: a concrete local-path source is never skipped, and a
concrete Git source with its artifact present and force-rebuild unset is
skipped. -/
theorem c5_cache_probe_witness :
    skip_rebuild (SpirvSourceG.localPath (V := Unit) ["r"] ()) [] ["d"] "x" false
        = false ∧
    (skip_rebuild (SpirvSourceG.git (V := Unit) "u".toList "r".toList)
        [(["d", "x"], [])] ["d"] "x" false = true ↔
      fsExists [(["d", "x"], [])] (["d"] ++ ["x"]) = true ∧ false = false) :=
  ⟨(c5_cache_probe (SpirvSourceG.localPath ["r"] ()) [] ["d"] "x" false).1 rfl,
    (c5_cache_probe (SpirvSourceG.git "u".toList "r".toList)
      [(["d", "x"], [])] ["d"] "x" false).2 rfl⟩

/-- Claim C7: marker detection in `handle_conflicting_cargo_lock_v4`
inspects the third line of the lock-manifest; if it contains
`version = 4` the conflict-handling path runs (exit without
authorization, in-place rewrite with it); otherwise if it contains
`version = 3` the file is accepted unchanged; any other third-line
content fails with the unrecognized-lockfile-format error. -/
theorem c7_marker_detection (folder : FPath) (force : Bool) (st : St)
    (contents thirdLine : Content)
    (hread : fsRead st.fs (folder ++ ["Cargo.lock"]) = some contents)
    (hthird : (rustLines contents)[2]? = some thirdLine) :
    (containsSubstr marker4 thirdLine = true →
      (force = false →
        handle_conflicting_cargo_lock_v4 folder force st = Res.exited 1) ∧
      (force = true →
        handle_conflicting_cargo_lock_v4 folder force st
          = Res.ok ⟨fsWrite st.fs (folder ++ ["Cargo.lock"])
              (replaceAll (versionPat "4".toList) (versionPat "3".toList) contents),
            st.writes ++ [folder ++ ["Cargo.lock"]]⟩)) ∧
    (containsSubstr marker4 thirdLine = false →
      containsSubstr marker3 thirdLine = true →
      handle_conflicting_cargo_lock_v4 folder force st = Res.ok st) ∧
    (containsSubstr marker4 thirdLine = false →
      containsSubstr marker3 thirdLine = false →
      handle_conflicting_cargo_lock_v4 folder force st
        = Res.err (.unrecognizedManifest folder)) := by
  refine ⟨?_, ?_, ?_⟩
  · intro h4
    constructor
    · intro hforce
      subst hforce
      simp [handle_conflicting_cargo_lock_v4, hread, hthird, h4,
        handle_v3v4_conflict]
    · intro hforce
      subst hforce
      simp [handle_conflicting_cargo_lock_v4, hread, hthird, h4,
        handle_v3v4_conflict, replace_cargo_lock_manifest_version]
  · intro h4 h3
    simp [handle_conflicting_cargo_lock_v4, hread, hthird, h4, h3]
  · intro h4 h3
    simp [handle_conflicting_cargo_lock_v4, hread, hthird, h4, h3]

/-- Witness for C7 on a concrete filesystem whose lock-manifest's third
line is `version = 4`, evaluating both detection conclusions. -/
theorem c7_marker_detection_witness :
    (handle_conflicting_cargo_lock_v4 ["w"] false
        ⟨[(["w", "Cargo.lock"], "a\nb\nversion = 4\n".toList)], []⟩
      = Res.exited 1) ∧
    (handle_conflicting_cargo_lock_v4 ["w"] true
        ⟨[(["w", "Cargo.lock"], "a\nb\nversion = 4\n".toList)], []⟩
      = Res.ok ⟨fsWrite [(["w", "Cargo.lock"], "a\nb\nversion = 4\n".toList)]
          (["w"] ++ ["Cargo.lock"])
          (replaceAll (versionPat "4".toList) (versionPat "3".toList)
            "a\nb\nversion = 4\n".toList),
        [] ++ [["w"] ++ ["Cargo.lock"]]⟩) :=
  ⟨((c7_marker_detection ["w"] false
      ⟨[(["w", "Cargo.lock"], "a\nb\nversion = 4\n".toList)], []⟩
      "a\nb\nversion = 4\n".toList "version = 4".toList
      (by decide) (by decide)).1 (by decide)).1 rfl,
    ((c7_marker_detection ["w"] true
      ⟨[(["w", "Cargo.lock"], "a\nb\nversion = 4\n".toList)], []⟩
      "a\nb\nversion = 4\n".toList "version = 4".toList
      (by decide) (by decide)).1 (by decide)).2 rfl⟩

/-- Claim C8: at the toolchain-install consent prompt, any terminal
input other than an affirmative keypress terminates the whole process
with exit status 0 (never an error returned to the caller); with the
non-interactive skip flag set, no prompt is issued and consent is
granted. -/
theorem c8_consent_prompt (skip : Bool) (events : List TermEvent) :
    (skip = true →
      get_consent_for_toolchain_install skip events
        = (ConsentOutcome.granted, false)) ∧
    (skip = false → ∀ e : TermEvent, ∀ rest : List TermEvent,
      events = e :: rest → isEnterRelease e = false → isAffirmative e = false →
      get_consent_for_toolchain_install skip events
        = (ConsentOutcome.exitedProcess 0, true)) ∧
    (skip = false → ∀ e d : TermEvent, ∀ rest : List TermEvent,
      events = e :: d :: rest → isEnterRelease e = true → isAffirmative d = false →
      get_consent_for_toolchain_install skip events
        = (ConsentOutcome.exitedProcess 0, true)) := by
  refine ⟨?_, ?_, ?_⟩
  · intro h
    subst h
    simp [get_consent_for_toolchain_install]
  · intro h e rest hev hentr haff
    subst h; subst hev
    simp [get_consent_for_toolchain_install, hentr, haff]
  · intro h e d rest hev hentr haff
    subst h; subst hev
    simp [get_consent_for_toolchain_install, hentr, haff]

/-- Witness for C8: the skip flag grants consent with no prompt; a
concrete non-affirmative key (`n`, pressed) exits with status 0; an
Enter-release followed by a non-affirmative key also exits with
status 0. -/
theorem c8_consent_prompt_witness :
    get_consent_for_toolchain_install true [] = (ConsentOutcome.granted, false) ∧
    get_consent_for_toolchain_install false [TermEvent.key (.charKey 'n') .press]
      = (ConsentOutcome.exitedProcess 0, true) ∧
    get_consent_for_toolchain_install false
        [TermEvent.key .enter .release, TermEvent.nonKey]
      = (ConsentOutcome.exitedProcess 0, true) :=
  ⟨(c8_consent_prompt true []).1 rfl,
    (c8_consent_prompt false [TermEvent.key (.charKey 'n') .press]).2.1 rfl
      (TermEvent.key (.charKey 'n') .press) [] rfl (by decide) (by decide),
    (c8_consent_prompt false
        [TermEvent.key .enter .release, TermEvent.nonKey]).2.2 rfl
      (TermEvent.key .enter .release) TermEvent.nonKey [] rfl
      (by decide) (by decide)⟩

/-- Claim C9: when the dependency metadata contains the companion
target-specs package but the `target-specs` subdirectory next to its
manifest does not exist on disk, target-spec resolution (run with
`skip_rebuild = false`) fails with the spec-resolution error instead of
falling back to the legacy bundle. -/
theorem c9_missing_specs_dir {V : Type} (source : SpirvSourceG V)
    (installDir manifestPath root cacheRoot : FPath) (isDir : FPath → Bool)
    (hpar : parentOf manifestPath = some root)
    (hdir : isDir (root ++ ["target-specs"]) = false) :
    update_spec_files source installDir (some manifestPath) isDir cacheRoot false
      = Except.error SpecErr.missingTargetSpecsDir := by
  simp [update_spec_files, hpar, hdir]

/-- Witness for C9 at a concrete local-path source, manifest path and
directory probe that reports the subdirectory missing. -/
theorem c9_missing_specs_dir_witness :
    update_spec_files (SpirvSourceG.localPath (V := Unit) ["r"] ()) ["d"]
        (some ["deps", "specs", "Cargo.toml"]) (fun _ => false) ["cache"] false
      = Except.error SpecErr.missingTargetSpecsDir :=
  c9_missing_specs_dir (SpirvSourceG.localPath ["r"] ()) ["d"]
    ["deps", "specs", "Cargo.toml"] ["deps", "specs"] ["cache"] (fun _ => false)
    (by decide) rfl

/-- Claim C10: the textual rendering of a Git source truncates the
revision to its first 8 characters, so two Git sources with the same
url whose distinct revisions agree on their first 8 characters derive
identical install directories while being different sources — the
source-to-directory mapping is not injective. -/
theorem c10_install_dir_collision {V : Type} (showVer : V → List Char)
    (renderPath : FPath → List Char) (cacheRoot : FPath)
    (url rev1 rev2 : List Char)
    (hne : rev1 ≠ rev2) (htake : rev1.take 8 = rev2.take 8) :
    SpirvSource_install_dir showVer renderPath cacheRoot
        (SpirvSourceG.git url rev1)
      = SpirvSource_install_dir showVer renderPath cacheRoot
        (SpirvSourceG.git url rev2)
    ∧ (SpirvSourceG.git url rev1 : SpirvSourceG V)
      ≠ SpirvSourceG.git url rev2 := by
  have hdisp : ∀ rev : List Char,
      SpirvSource_display showVer renderPath (SpirvSourceG.git (V := V) url rev)
        = url ++ '+' :: rev.take 8 := by
    intro rev
    by_cases h : 8 ≤ rev.length
    · simp [SpirvSource_display, h]
    · have ht : rev.take 8 = rev := List.take_of_length_le (by omega)
      simp [SpirvSource_display, h, ht]
  constructor
  · show cacheRoot ++ ["codegen", String.mk (to_dirname (SpirvSource_display
        showVer renderPath (SpirvSourceG.git url rev1)))]
      = cacheRoot ++ ["codegen", String.mk (to_dirname (SpirvSource_display
        showVer renderPath (SpirvSourceG.git url rev2)))]
    rw [hdisp rev1, hdisp rev2, htake]
  · intro h
    exact hne (SpirvSourceG.git.inj h).2

/-- Witness for C10: two concrete 9-character revisions differing only
in their last character map to the same install directory. -/
theorem c10_install_dir_collision_witness :
    SpirvSource_install_dir (V := Unit) (fun _ => []) (fun _ => []) ["cache"]
        (SpirvSourceG.git "https://g.example/r".toList "abcdefgh1".toList)
      = SpirvSource_install_dir (V := Unit) (fun _ => []) (fun _ => []) ["cache"]
        (SpirvSourceG.git "https://g.example/r".toList "abcdefgh2".toList)
    ∧ (SpirvSourceG.git (V := Unit) "https://g.example/r".toList
        "abcdefgh1".toList)
      ≠ SpirvSourceG.git (V := Unit) "https://g.example/r".toList
        "abcdefgh2".toList :=
  c10_install_dir_collision (fun _ => []) (fun _ => []) ["cache"]
    "https://g.example/r".toList "abcdefgh1".toList "abcdefgh2".toList
    (by decide) (by decide)

/-- Counterexample to claim C6: with a url override present but no
version/rev override, `SpirvSource::new` still inspects the project's
dependency metadata (the result varies with the metadata and the url is
ignored), contradicting "only when both override fields are absent is
the project's dependency metadata inspected". -/
theorem c6_counterexample :
    SpirvSource_new (V := Unit) (E := Unit) (fun _ => none)
        (Except.ok (SpirvSourceG.registry ()))
        (some "https://g.example/r".toList) none
      ≠ SpirvSource_new (fun _ => none)
        (Except.ok (SpirvSourceG.git "g".toList "r".toList))
        (some "https://g.example/r".toList) none := by
  simp [SpirvSource_new]

/-- Claim C6 (amended): a version/rev override with a url gives the
version-control variant; a version/rev override alone gives the
registry variant holding the parsed semantic version; whenever the
version/rev override is absent — even if the url override is present,
which is then ignored — the result is that of inspecting the project's
dependency metadata. -/
theorem c6_source_classification {V E : Type} (parse : List Char → Option V)
    (metaSrc : Except E (SpirvSourceG V)) (u v : List Char) :
    (SpirvSource_new parse metaSrc (some u) (some v)
      = Except.ok (SpirvSourceG.git u v)) ∧
    (∀ ver : V, parse v = some ver →
      SpirvSource_new parse metaSrc none (some v)
        = Except.ok (SpirvSourceG.registry ver)) ∧
    (∀ maybeU : Option (List Char),
      SpirvSource_new parse metaSrc maybeU none
        = (match metaSrc with
          | .ok s => Except.ok s
          | .error e => Except.error (SrcErr.metaErr e))) := by
  refine ⟨rfl, ?_, ?_⟩
  · intro ver h
    simp [SpirvSource_new, h]
  · intro maybeU
    cases maybeU <;> rfl

/-- Witness for C6 (amended) at a concrete parser and metadata result. -/
theorem c6_source_classification_witness :
    SpirvSource_new (E := Unit)
        (fun s => if s = "0.9.0".toList then some 9 else none)
        (Except.ok (SpirvSourceG.registry 7)) (some "u".toList)
        (some "0.9.0".toList)
      = Except.ok (SpirvSourceG.git "u".toList "0.9.0".toList) ∧
    SpirvSource_new (E := Unit)
        (fun s => if s = "0.9.0".toList then some 9 else none)
        (Except.ok (SpirvSourceG.registry 7)) none (some "0.9.0".toList)
      = Except.ok (SpirvSourceG.registry 9) ∧
    SpirvSource_new (E := Unit)
        (fun s => if s = "0.9.0".toList then some (9 : Nat) else none)
        (Except.ok (SpirvSourceG.registry 7)) (some "u".toList) none
      = Except.ok (SpirvSourceG.registry 7) :=
  ⟨(c6_source_classification
      (fun s => if s = "0.9.0".toList then some 9 else none)
      (Except.ok (SpirvSourceG.registry 7)) "u".toList "0.9.0".toList).1,
    (c6_source_classification
      (fun s => if s = "0.9.0".toList then some 9 else none)
      (Except.ok (SpirvSourceG.registry 7)) "u".toList "0.9.0".toList).2.1
      9 (by decide),
    (c6_source_classification
      (fun s => if s = "0.9.0".toList then some 9 else none)
      (Except.ok (SpirvSourceG.registry 7)) "u".toList "0.9.0".toList).2.2
      (some "u".toList)⟩

/-- Claim C1 (code bug, failing input): with a workspace toolchain at
1.83.0, a shader toolchain at 1.82.0, no force-overwrite authorization,
and a workspace whose lock-manifests are already `version = 3`, the
guard's construction rewrites nothing (the write log is empty and the
filesystem is unchanged) yet records the workspace `Cargo.lock` for
restoration — and the guard's destructor then rewrites that untouched
file's marker from 3 to 4.  This contradicts the claim (and the
handler's own field documentation) that exactly the rewritten files are
recorded and that untouched files are never written to. -/
theorem c1_records_file_it_never_rewrote :
    LockfileMismatchHandler_new ⟨1, 83, 0, []⟩ ⟨1, 82, 0, []⟩ ["w", "s"] false
        ⟨[(["w", "s", "Cargo.toml"], "[package]\nworkspace = true\n".toList),
          (["w", "s", "Cargo.lock"], "# c\n# c2\nversion = 3\n".toList),
          (["w", "Cargo.lock"], "# c\n# c2\nversion = 3\n".toList)], []⟩
      = Res.ok ([["w", "Cargo.lock"]],
          ⟨[(["w", "s", "Cargo.toml"], "[package]\nworkspace = true\n".toList),
            (["w", "s", "Cargo.lock"], "# c\n# c2\nversion = 3\n".toList),
            (["w", "Cargo.lock"], "# c\n# c2\nversion = 3\n".toList)], []⟩) ∧
    fsRead (dropGuard [["w", "Cargo.lock"]]
        ⟨[(["w", "s", "Cargo.toml"], "[package]\nworkspace = true\n".toList),
          (["w", "s", "Cargo.lock"], "# c\n# c2\nversion = 3\n".toList),
          (["w", "Cargo.lock"], "# c\n# c2\nversion = 3\n".toList)], []⟩).fs
      ["w", "Cargo.lock"] = some "# c\n# c2\nversion = 4\n".toList := by
  constructor
  · decide
  · decide

theorem fsRead_fsWrite_self (fs : FS) (p : FPath) (c : Content) :
    fsRead (fsWrite fs p c) p = (fsRead fs p).map (fun _ => c) := by
  induction fs with
  | nil => rfl
  | cons e rest ih =>
    obtain ⟨q, d⟩ := e
    by_cases h : q = p
    · subst h
      simp [fsRead, fsWrite]
    · simp [fsRead, fsWrite, h, ih]

theorem fsRead_fsWrite_other (fs : FS) (p : FPath) (c : Content) (q : FPath)
    (h : q ≠ p) :
    fsRead (fsWrite fs p c) q = fsRead fs q := by
  induction fs with
  | nil => rfl
  | cons e rest ih =>
    obtain ⟨r, d⟩ := e
    by_cases hr : r = p
    · subst hr
      simp [fsRead, fsWrite, Ne.symm h, ih]
    · simp only [fsWrite, if_neg hr]
      by_cases hq : r = q
      · subst hq
        simp [fsRead]
      · simp only [fsRead, if_neg hq]
        exact ih

/-- Claim C2: the guard's destructor body reverts every recorded file's
marker pattern from 3 back to 4 (when the recorded files are distinct
and readable, the internal revert reports no failure, every recorded
file's content is rewritten with the 3 → 4 pattern replacement, and no
other file changes); `dropGuard` discards the revert's error component,
so a restoration failure is logged but never propagated. -/
theorem c2_drop_reverts_recorded (recorded : List FPath) (st : St)
    (hnd : recorded.Nodup)
    (hread : ∀ p ∈ recorded, (fsRead st.fs p).isSome = true) :
    (revertRec recorded st).2 = none ∧
    (∀ p ∈ recorded,
      fsRead (dropGuard recorded st).fs p
        = Option.map (replaceAll (versionPat "3".toList) (versionPat "4".toList))
            (fsRead st.fs p)) ∧
    (∀ q : FPath, q ∉ recorded →
      fsRead (dropGuard recorded st).fs q = fsRead st.fs q) := by
  induction recorded generalizing st with
  | nil =>
    exact ⟨rfl, by simp, fun q _ => rfl⟩
  | cons p rest ih =>
    have hp : (fsRead st.fs p).isSome = true := hread p (List.mem_cons_self p rest)
    obtain ⟨c, hc⟩ := Option.isSome_iff_exists.mp hp
    have hpnotin : p ∉ rest := (List.nodup_cons.mp hnd).1
    have hstep : replace_cargo_lock_manifest_version p "3".toList "4".toList st
        = Except.ok ⟨fsWrite st.fs p
            (replaceAll (versionPat "3".toList) (versionPat "4".toList) c),
          st.writes ++ [p]⟩ := by
      simp [replace_cargo_lock_manifest_version, hc]
    have hrec : revertRec (p :: rest) st
        = revertRec rest ⟨fsWrite st.fs p
            (replaceAll (versionPat "3".toList) (versionPat "4".toList) c),
          st.writes ++ [p]⟩ := by
      simp only [revertRec]
      rw [hstep]
    have hread' : ∀ q ∈ rest,
        (fsRead (⟨fsWrite st.fs p
            (replaceAll (versionPat "3".toList) (versionPat "4".toList) c),
          st.writes ++ [p]⟩ : St).fs q).isSome = true := by
      intro q hq
      have hqp : q ≠ p := fun h => hpnotin (h ▸ hq)
      show (fsRead (fsWrite st.fs p _) q).isSome = true
      rw [fsRead_fsWrite_other st.fs p _ q hqp]
      exact hread q (List.mem_cons_of_mem p hq)
    obtain ⟨h1, h2, h3⟩ := ih _ (List.nodup_cons.mp hnd).2 hread'
    refine ⟨by rw [hrec]; exact h1, ?_, ?_⟩
    · intro q hq
      rcases List.mem_cons.mp hq with hq | hq
      · subst hq
        have := h3 q hpnotin
        show fsRead (dropGuard (q :: rest) st).fs q = _
        rw [show dropGuard (q :: rest) st = dropGuard rest _ from congrArg Prod.fst hrec,
          this]
        show fsRead (fsWrite st.fs q _) q = _
        rw [fsRead_fsWrite_self, hc]
        rfl
      · have hqp : q ≠ p := fun h => hpnotin (h ▸ hq)
        have := h2 q hq
        show fsRead (dropGuard (p :: rest) st).fs q = _
        rw [show dropGuard (p :: rest) st = dropGuard rest _ from congrArg Prod.fst hrec,
          this]
        show Option.map _ (fsRead (fsWrite st.fs p _) q) = _
        rw [fsRead_fsWrite_other st.fs p _ q hqp]
    · intro q hq
      have hqp : q ≠ p := fun h => hq (h ▸ List.mem_cons_self p rest)
      have hqrest : q ∉ rest := fun h => hq (List.mem_cons_of_mem p h)
      show fsRead (dropGuard (p :: rest) st).fs q = _
      rw [show dropGuard (p :: rest) st = dropGuard rest _ from congrArg Prod.fst hrec,
        h3 q hqrest]
      show fsRead (fsWrite st.fs p _) q = _
      rw [fsRead_fsWrite_other st.fs p _ q hqp]

/-- Witness for C2 on a concrete one-file guard: the revert reports no
failure and rewrites the recorded file's marker 3 → 4. -/
theorem c2_drop_reverts_recorded_witness :
    (revertRec [["a", "Cargo.lock"]]
        ⟨[(["a", "Cargo.lock"], "x\ny\nversion = 3\n".toList)], []⟩).2 = none ∧
    fsRead (dropGuard [["a", "Cargo.lock"]]
        ⟨[(["a", "Cargo.lock"], "x\ny\nversion = 3\n".toList)], []⟩).fs
        ["a", "Cargo.lock"]
      = Option.map (replaceAll (versionPat "3".toList) (versionPat "4".toList))
          (fsRead [(["a", "Cargo.lock"], "x\ny\nversion = 3\n".toList)]
            ["a", "Cargo.lock"]) :=
  ⟨(c2_drop_reverts_recorded [["a", "Cargo.lock"]]
      ⟨[(["a", "Cargo.lock"], "x\ny\nversion = 3\n".toList)], []⟩
      (by decide) (by decide)).1,
    (c2_drop_reverts_recorded [["a", "Cargo.lock"]]
      ⟨[(["a", "Cargo.lock"], "x\ny\nversion = 3\n".toList)], []⟩
      (by decide) (by decide)).2.1 ["a", "Cargo.lock"] (by decide)⟩

/-- Counterexample to claim C3: a lock-manifest whose third line is
exactly `version = 4` but which also contains a `\nversion = 3\n`
pattern further down is *not* restored byte-identically: constructing
the guard (force-overwrite granted, invoking toolchain below 1.83.0)
rewrites the marker 4 → 3 and records the file, but releasing the guard
rewrites *every* `\nversion = 3\n` occurrence to 4, so the file ends up
`...version = 4\nc\nversion = 4\n` instead of the original
`...version = 4\nc\nversion = 3\n`. -/
theorem c3_counterexample :
    (rustLines "a\nb\nversion = 4\nc\nversion = 3\n".toList)[2]?
      = some "version = 4".toList ∧
    LockfileMismatchHandler_new ⟨1, 82, 0, []⟩ ⟨1, 83, 0, []⟩ ["s"] true
        ⟨[(["s", "Cargo.toml"], "[package]\n".toList),
          (["s", "Cargo.lock"], "a\nb\nversion = 4\nc\nversion = 3\n".toList)], []⟩
      = Res.ok ([["s", "Cargo.lock"]],
          ⟨[(["s", "Cargo.toml"], "[package]\n".toList),
            (["s", "Cargo.lock"], "a\nb\nversion = 3\nc\nversion = 3\n".toList)],
          [["s", "Cargo.lock"]]⟩) ∧
    fsRead (dropGuard [["s", "Cargo.lock"]]
        ⟨[(["s", "Cargo.toml"], "[package]\n".toList),
          (["s", "Cargo.lock"], "a\nb\nversion = 3\nc\nversion = 3\n".toList)],
        [["s", "Cargo.lock"]]⟩).fs ["s", "Cargo.lock"]
      = some "a\nb\nversion = 4\nc\nversion = 4\n".toList ∧
    "a\nb\nversion = 4\nc\nversion = 4\n".toList
      ≠ "a\nb\nversion = 4\nc\nversion = 3\n".toList := by
  refine ⟨by decide, by decide, by decide, by decide⟩

/-- Claim C3 (amended): for a lock-manifest of the form
`l1\nl2` + `\nversion = 4\n` + `b` (so its third line is exactly
`version = 4`), *provided* neither marker pattern occurs anywhere else
in the file — no `\nversion = 4\n` or `\nversion = 3\n` match starting
in the first two lines and neither pattern occurring in the remainder
`b` — the guard's rewrite changes exactly the one marker digit (4 to 3,
at the fixed offset, all other positions and the length unchanged) and
releasing the guard restores the original byte content exactly. -/
theorem c3_guard_roundtrip_amended (l1 l2 b : List Char)
    (h1 : '\n' ∉ l1) (h2 : '\n' ∉ l2)
    (hA4 : containsSubstr (versionPat "4".toList)
        ((l1 ++ '\n' :: l2) ++ (versionPat "4".toList).dropLast) = false)
    (hA3 : containsSubstr (versionPat "3".toList)
        ((l1 ++ '\n' :: l2) ++ (versionPat "3".toList).dropLast) = false)
    (hb4 : containsSubstr (versionPat "4".toList) b = false)
    (hb3 : containsSubstr (versionPat "3".toList) b = false) :
    (rustLines ((l1 ++ '\n' :: l2) ++ versionPat "4".toList ++ b))[2]?
      = some "version = 4".toList ∧
    replaceAll (versionPat "3".toList) (versionPat "4".toList)
        (replaceAll (versionPat "4".toList) (versionPat "3".toList)
          ((l1 ++ '\n' :: l2) ++ versionPat "4".toList ++ b))
      = (l1 ++ '\n' :: l2) ++ versionPat "4".toList ++ b ∧
    (replaceAll (versionPat "4".toList) (versionPat "3".toList)
        ((l1 ++ '\n' :: l2) ++ versionPat "4".toList ++ b)).length
      = ((l1 ++ '\n' :: l2) ++ versionPat "4".toList ++ b).length ∧
    ((l1 ++ '\n' :: l2) ++ versionPat "4".toList ++ b)[(l1 ++ '\n' :: l2).length + 11]?
      = some '4' ∧
    (replaceAll (versionPat "4".toList) (versionPat "3".toList)
        ((l1 ++ '\n' :: l2) ++ versionPat "4".toList ++ b))[(l1 ++ '\n' :: l2).length + 11]?
      = some '3' ∧
    (∀ j : Nat, j ≠ (l1 ++ '\n' :: l2).length + 11 →
      (replaceAll (versionPat "4".toList) (versionPat "3".toList)
          ((l1 ++ '\n' :: l2) ++ versionPat "4".toList ++ b))[j]?
        = ((l1 ++ '\n' :: l2) ++ versionPat "4".toList ++ b)[j]?) := by
  have hp4ne : versionPat "4".toList ≠ [] := by decide
  have hp3ne : versionPat "3".toList ≠ [] := by decide
  have hrw : replaceAll (versionPat "4".toList) (versionPat "3".toList)
      ((l1 ++ '\n' :: l2) ++ versionPat "4".toList ++ b)
      = (l1 ++ '\n' :: l2) ++ versionPat "3".toList ++ b :=
    replaceAll_single _ _ (l1 ++ '\n' :: l2) b hp4ne hA4 hb4
  have hrt : replaceAll (versionPat "3".toList) (versionPat "4".toList)
      ((l1 ++ '\n' :: l2) ++ versionPat "3".toList ++ b)
      = (l1 ++ '\n' :: l2) ++ versionPat "4".toList ++ b :=
    replaceAll_single _ _ (l1 ++ '\n' :: l2) b hp3ne hA3 hb3
  have hshape : (l1 ++ '\n' :: l2) ++ versionPat "4".toList ++ b
      = l1 ++ '\n' :: (l2 ++ '\n' :: ("version = 4".toList ++ '\n' :: b)) := by
    have hv : versionPat "4".toList = '\n' :: ("version = 4".toList ++ ['\n']) := by
      decide
    rw [hv]
    simp [List.append_assoc]
  refine ⟨?_, ?_, ?_, ?_, ?_, ?_⟩
  · rw [hshape]
    exact rustLines_third l1 l2 ("version = 4".toList) b h1 h2 (by decide) (by decide)
  · rw [hrw]
    exact hrt
  · rw [hrw]
    simp [versionPat]
  · rw [getElem?_append_mid (l1 ++ '\n' :: l2) (versionPat "4".toList) b 11 (by decide)]
    decide
  · rw [hrw,
      getElem?_append_mid (l1 ++ '\n' :: l2) (versionPat "3".toList) b 11 (by decide)]
    decide
  · intro j hj
    rw [hrw]
    exact getElem?_append_mid_ne (l1 ++ '\n' :: l2) b
      (versionPat "3".toList) (versionPat "4".toList) (by decide) 11
      (by decide) j hj

/-- Witness for C3 (amended) on a concrete two-comment-line
lock-manifest whose remainder holds no marker pattern. -/
theorem c3_guard_roundtrip_amended_witness :
    (rustLines (("# c".toList ++ '\n' :: "# c2".toList)
        ++ versionPat "4".toList ++ "rest".toList))[2]?
      = some "version = 4".toList ∧
    replaceAll (versionPat "3".toList) (versionPat "4".toList)
        (replaceAll (versionPat "4".toList) (versionPat "3".toList)
          (("# c".toList ++ '\n' :: "# c2".toList)
            ++ versionPat "4".toList ++ "rest".toList))
      = ("# c".toList ++ '\n' :: "# c2".toList)
          ++ versionPat "4".toList ++ "rest".toList ∧
    (replaceAll (versionPat "4".toList) (versionPat "3".toList)
        (("# c".toList ++ '\n' :: "# c2".toList)
          ++ versionPat "4".toList ++ "rest".toList))[("# c".toList
            ++ '\n' :: "# c2".toList).length + 11]?
      = some '3' ∧
    (replaceAll (versionPat "4".toList) (versionPat "3".toList)
        (("# c".toList ++ '\n' :: "# c2".toList)
          ++ versionPat "4".toList ++ "rest".toList))[0]?
      = (("# c".toList ++ '\n' :: "# c2".toList)
          ++ versionPat "4".toList ++ "rest".toList)[0]? :=
  ⟨(c3_guard_roundtrip_amended "# c".toList "# c2".toList "rest".toList
      (by decide) (by decide) (by decide) (by decide) (by decide) (by decide)).1,
    (c3_guard_roundtrip_amended "# c".toList "# c2".toList "rest".toList
      (by decide) (by decide) (by decide) (by decide) (by decide) (by decide)).2.1,
    (c3_guard_roundtrip_amended "# c".toList "# c2".toList "rest".toList
      (by decide) (by decide) (by decide) (by decide) (by decide)
      (by decide)).2.2.2.2.1,
    (c3_guard_roundtrip_amended "# c".toList "# c2".toList "rest".toList
      (by decide) (by decide) (by decide) (by decide) (by decide)
      (by decide)).2.2.2.2.2 0 (by decide)⟩
